import Mathlib

/-!
Shallow embedding of the RSI bullish-divergence scanner (`rsi.py`) and proofs
about its specification.

Conventions of the embedding:
* Finite IEEE-754 doubles coming from the data provider (prices, volumes) are
  modelled as exact rationals; float values that can be NaN or infinite
  (the oscillator column, computed forward returns) are modelled by `PyFloat`,
  a rational extended with `nan`, `inf` and `ninf`, with comparison and
  arithmetic following IEEE-754 (every comparison with `nan` is false;
  the values in `rsi.py` are numpy float64 scalars, so x / 0 yields a signed
  infinity or `nan`, it does not raise).
* The process-wide mutable state of `rsi.py` (the two `lru_cache` tables of
  `download_data` and `get_preprocessed_data`, the manual `_cache_store` /
  `_cache_date` pair) is threaded explicitly as a `CacheState`.
* The in-place column assignment `data['rsi'] = ...` of `add_rsi` mutates the
  very DataFrame object held by the caches; the model makes this explicit by
  writing the updated frame back into every cache slot keyed by the symbol
  (`writeBack`), since all slots for a symbol alias one object.
* A Python function that can raise is modelled with `Except String`; callers
  that `try/except` and continue consume that `Except`.
* `round(x, 2)` is modelled by round-half-to-even at two decimal places on the
  rational value (`round2q`); `nan`/`inf` are fixed points of `round`, as in
  Python.
-/

/-- IEEE-754 style value: a finite rational, a signed infinity, or `nan`. -/
inductive PyFloat where
  | nan : PyFloat
  | inf : PyFloat
  | ninf : PyFloat
  | num : ℚ → PyFloat
deriving DecidableEq

instance : Inhabited PyFloat := ⟨PyFloat.nan⟩

/-- IEEE-754 `<` on `PyFloat`: any comparison involving `nan` is false. -/
def flt : PyFloat → PyFloat → Bool
  | PyFloat.num a, PyFloat.num b => decide (a < b)
  | PyFloat.ninf, PyFloat.num _ => true
  | PyFloat.ninf, PyFloat.inf => true
  | PyFloat.num _, PyFloat.inf => true
  | _, _ => false

/-- IEEE-754 subtraction on `PyFloat`. -/
def fsub : PyFloat → PyFloat → PyFloat
  | PyFloat.nan, _ => PyFloat.nan
  | _, PyFloat.nan => PyFloat.nan
  | PyFloat.num a, PyFloat.num b => PyFloat.num (a - b)
  | PyFloat.inf, PyFloat.inf => PyFloat.nan
  | PyFloat.inf, _ => PyFloat.inf
  | PyFloat.ninf, PyFloat.ninf => PyFloat.nan
  | PyFloat.ninf, _ => PyFloat.ninf
  | PyFloat.num _, PyFloat.inf => PyFloat.ninf
  | PyFloat.num _, PyFloat.ninf => PyFloat.inf

/-- IEEE-754 division on `PyFloat` (numpy float64 semantics: a finite value
divided by zero gives a signed infinity, `0 / 0` gives `nan`; no exception).
The sign of zero is abstracted away: divisions that would produce a zero
produce the plain rational `0`. -/
def fdiv : PyFloat → PyFloat → PyFloat
  | PyFloat.nan, _ => PyFloat.nan
  | _, PyFloat.nan => PyFloat.nan
  | PyFloat.num a, PyFloat.num b =>
      if b ≠ 0 then PyFloat.num (a / b)
      else if 0 < a then PyFloat.inf
      else if a < 0 then PyFloat.ninf
      else PyFloat.nan
  | PyFloat.inf, PyFloat.num b => if 0 ≤ b then PyFloat.inf else PyFloat.ninf
  | PyFloat.ninf, PyFloat.num b => if 0 ≤ b then PyFloat.ninf else PyFloat.inf
  | PyFloat.num _, PyFloat.inf => PyFloat.num 0
  | PyFloat.num _, PyFloat.ninf => PyFloat.num 0
  | _, _ => PyFloat.nan

/-- IEEE-754 multiplication on `PyFloat`. -/
def fmul : PyFloat → PyFloat → PyFloat
  | PyFloat.nan, _ => PyFloat.nan
  | _, PyFloat.nan => PyFloat.nan
  | PyFloat.num a, PyFloat.num b => PyFloat.num (a * b)
  | PyFloat.inf, PyFloat.num b =>
      if 0 < b then PyFloat.inf else if b < 0 then PyFloat.ninf else PyFloat.nan
  | PyFloat.num b, PyFloat.inf =>
      if 0 < b then PyFloat.inf else if b < 0 then PyFloat.ninf else PyFloat.nan
  | PyFloat.ninf, PyFloat.num b =>
      if 0 < b then PyFloat.ninf else if b < 0 then PyFloat.inf else PyFloat.nan
  | PyFloat.num b, PyFloat.ninf =>
      if 0 < b then PyFloat.ninf else if b < 0 then PyFloat.inf else PyFloat.nan
  | PyFloat.inf, PyFloat.inf => PyFloat.inf
  | PyFloat.ninf, PyFloat.ninf => PyFloat.inf
  | PyFloat.inf, PyFloat.ninf => PyFloat.ninf
  | PyFloat.ninf, PyFloat.inf => PyFloat.ninf

/-- Round-half-to-even to an integer, the tie-breaking rule of Python `round`. -/
def rhe (q : ℚ) : ℤ :=
  let f : ℤ := ⌊q⌋
  let r : ℚ := q - f
  if r < 1/2 then f
  else if 1/2 < r then f + 1
  else if 2 ∣ f then f else f + 1

/-- Python `round(x, 2)` on a finite value. -/
def round2q (q : ℚ) : ℚ := (rhe (q * 100) : ℚ) / 100

/-- Python `round(x, 2)` on a float: `nan` and the infinities round to
themselves. -/
def pyRound2 : PyFloat → PyFloat
  | PyFloat.num q => PyFloat.num (round2q q)
  | x => x

/-- `<` on plain rationals, the comparison used when a series holds only
finite values. -/
def qlt (a b : ℚ) : Bool := decide (a < b)

/-- `find_pivot_lows(series, left, right)` from `rsi.py`, over any element
type with a boolean strict comparison `lt` (instantiated with `qlt` for plain
numeric series and with `flt` for the float series `data['rsi']`):

    pivots = []
    for i in range(left, len(series) - right):
        if all(series.iloc[i] < series.iloc[i - j] for j in range(1, left + 1)) and \
           all(series.iloc[i] < series.iloc[i + j] for j in range(1, right + 1)):
            pivots.append(i)
    return pivots

Every `iloc` access made by the loop is in bounds (`left <= i` and
`i < len - right`), so `getD` with the default element never falls back to
the default. -/
def find_pivot_lows [Inhabited α] (lt : α → α → Bool) (series : List α)
    (left right : ℕ) : List ℕ :=
  (List.range' left (series.length - right - left)).filter fun i =>
    ((List.range left).all fun j =>
      lt (series.getD i default) (series.getD (i - (j + 1)) default)) &&
    ((List.range right).all fun j =>
      lt (series.getD i default) (series.getD (i + (j + 1)) default))

/-- `check_bullish_divergence(data, pivot_lows)` from `rsi.py`:

    divergences = []
    for i in range(1, len(pivot_lows)):
        curr, prev = pivot_lows[i], pivot_lows[i - 1]
        rsi_hl = data['rsi'].iloc[curr] > data['rsi'].iloc[prev]
        price_ll = data['Low'].iloc[curr] < data['Low'].iloc[prev]
        if rsi_hl and price_ll:
            divergences.append(curr)
    return divergences

The loop visits exactly the adjacent pairs `(pivot_lows[i-1], pivot_lows[i])`
in order, which is the structural recursion below.  `data['rsi']` is a float
series (`flt` comparison, `a > b` is `b < a` in IEEE-754), `data['Low']`
holds finite prices. -/
def check_bullish_divergence (rsi : List PyFloat) (low : List ℚ) :
    List ℕ → List ℕ
  | prev :: curr :: rest =>
    (if flt (rsi.getD prev PyFloat.nan) (rsi.getD curr PyFloat.nan)
        && decide (low.getD curr 0 < low.getD prev 0)
     then [curr] else [])
    ++ check_bullish_divergence rsi low (curr :: rest)
  | _ => []

/-- One row of the yfinance DataFrame: date index plus the
Open/High/Low/Close/Volume columns. -/
structure Bar where
  date : ℕ
  op : ℚ
  hi : ℚ
  lo : ℚ
  cl : ℚ
  vol : ℤ
deriving DecidableEq

instance : Inhabited Bar := ⟨⟨0, 0, 0, 0, 0, 0⟩⟩

/-- The DataFrame produced by `ticker.history(period='1y')`: the raw bar rows,
plus the `rsi` column once `add_rsi` has assigned it (absent before that). -/
structure Frame where
  bars : List Bar
  rsi : Option (List PyFloat)
deriving DecidableEq

def Frame.nrows (f : Frame) : ℕ := f.bars.length

def Frame.rowAt (f : Frame) (k : ℕ) : Bar := f.bars.getD k default

/-- `data['Open'].iloc[k]`. -/
def Frame.openAt (f : Frame) (k : ℕ) : ℚ := (f.rowAt k).op

/-- `data['Close'].iloc[k]`. -/
def Frame.closeAt (f : Frame) (k : ℕ) : ℚ := (f.rowAt k).cl

/-- `data['Low'].iloc[k]`. -/
def Frame.lowAt (f : Frame) (k : ℕ) : ℚ := (f.rowAt k).lo

/-- `data['High'].iloc[k]`. -/
def Frame.highAt (f : Frame) (k : ℕ) : ℚ := (f.rowAt k).hi

/-- `data['rsi'].iloc[k]` (the column exists whenever it is read). -/
def Frame.rsiAt (f : Frame) (k : ℕ) : PyFloat := (f.rsi.getD []).getD k PyFloat.nan

/-- The `Low` column as a list. -/
def Frame.lowCol (f : Frame) : List ℚ := f.bars.map Bar.lo

/-- The `Close` column as a list. -/
def Frame.closeCol (f : Frame) : List ℚ := f.bars.map Bar.cl

/-- The `rsi` column as a list. -/
def Frame.rsiCol (f : Frame) : List PyFloat := f.rsi.getD []

/-- `rsi_period = 14` from the SETTINGS block. -/
def rsi_period : ℕ := 14

/-- `pivot_lookback = 5` from the SETTINGS block. -/
def pivot_lookback : ℕ := 5

/-- `add_rsi(data, period)` from `rsi.py`:

    data['rsi'] = ta.momentum.RSIIndicator(data['Close'], window=period).rsi()
    return data

The oscillator itself is the external `ta` library call, abstracted as the
parameter `rsiFn` (period, close column ↦ oscillator column).  In Python the
assignment mutates the DataFrame object in place; the pure model returns the
updated frame and the call sites write it back into every cache slot holding
that object (`writeBack`). -/
def add_rsi (rsiFn : ℕ → List ℚ → List PyFloat) (data : Frame) (period : ℕ) :
    Frame :=
  { data with rsi := some (rsiFn period data.closeCol) }

/-- Successive differences `close.diff(1)` (without the leading NaN slot). -/
def deltas : List ℚ → List ℚ
  | a :: b :: rest => (b - a) :: deltas (b :: rest)
  | _ => []

/-- Wilder smoothing: seed with the simple average of the first `period`
values, then `avg' = (avg * (period - 1) + x) / period`. -/
def wilderAvgs (period : ℕ) (xs : List ℚ) : List ℚ :=
  (xs.drop period).scanl
    (fun a x => (a * ((period : ℚ) - 1) + x) / (period : ℚ))
    ((xs.take period).sum / (period : ℚ))

/-- Modelled from the spec: the oscillator of section 4.1 is produced by the
external `ta.momentum.RSIIndicator(close, window=period).rsi()` call, whose
implementation is not part of this repository.  Wilder-style smoothed RSI:
the first `period` entries are undefined (`nan`), later entries are
`100 - 100 / (1 + avgGain / avgLoss)` (and `100` when the average loss is
zero), a value in `[0, 100]`.  Used as the concrete `rsiFn` instance in
closed runs; the theorems about the pipeline hold for every `rsiFn`. -/
def rsiWilder (period : ℕ) (closes : List ℚ) : List PyFloat :=
  let gains := (deltas closes).map fun d => max d 0
  let losses := (deltas closes).map fun d => max (-d) 0
  let ag := wilderAvgs period (gains.take ((closes.length - 1)))
  let al := wilderAvgs period (losses.take ((closes.length - 1)))
  (List.range closes.length).map fun i =>
    if i < period ∨ period = 0 then PyFloat.nan
    else
      let au := ag.getD (i - period) 0
      let ad := al.getD (i - period) 0
      PyFloat.num (if ad = 0 then 100 else 100 - 100 / (1 + au / ad))

/-- `open_next_day` of `get_bullish_divergence_results`:
`data['Open'].iloc[idx + 1] if idx + 1 < len(data) else None`. -/
def open_next_day_of (data : Frame) (idx : ℕ) : Option ℚ :=
  if idx + 1 < data.nrows then some (data.openAt (idx + 1)) else none

/-- Base-price selection of `get_bullish_divergence_results`:

    if use_next_open and open_next_day is not None:
        base_price = open_next_day; price_basis = "Open Next Day"
    else:
        base_price = close_today; price_basis = "Close"
-/
def base_price_of (data : Frame) (idx : ℕ) (use_next_open : Bool) :
    ℚ × String :=
  match use_next_open, open_next_day_of data idx with
  | true, some o => (o, "Open Next Day")
  | true, none => (data.closeAt idx, "Close")
  | false, _ => (data.closeAt idx, "Close")

/-- The forward-return loop of `get_bullish_divergence_results`:

    future_returns = {}
    available_days = 0
    for j in range(1, 6):
        if idx + j < len(data):
            future_close = data['Close'].iloc[idx + j]
            ret = ((future_close - base_price) / base_price) * 100
            future_returns[f"Day+{j} Return (%)"] = round(ret, 2)
            available_days = j
        else:
            future_returns[f"Day+{j} Return (%)"] = None

Returns the five `Day+j` slots in order (a `none` slot is the explicit Python
`None`) together with `available_days`.  The arithmetic is numpy float64
arithmetic, hence the `PyFloat` operations. -/
def future_returns_of (data : Frame) (idx : ℕ) (base_price : ℚ) :
    List (Option PyFloat) × ℕ :=
  (List.range' 1 5).foldl
    (fun acc j =>
      if idx + j < data.nrows then
        (acc.1 ++ [some (pyRound2 (fmul
            (fdiv (fsub (PyFloat.num (data.closeAt (idx + j)))
                        (PyFloat.num base_price))
                  (PyFloat.num base_price))
            (PyFloat.num 100)))], j)
      else (acc.1 ++ [none], acc.2))
    ([], 0)

/-- The per-occurrence result dict built by `get_bullish_divergence_results`
(lines 159-200 of `rsi.py`). -/
structure ProjRecord where
  symbol : String
  prevClose : Option ℚ
  divClose : ℚ
  openNextDay : Option ℚ
  rsiV : PyFloat
  usedPrice : String
  availableDays : ℕ
  isTodaySignal : Bool
  dayReturns : List (Option PyFloat)
deriving DecidableEq

/-- Building the result dict for one divergence occurrence `idx`
(`get_bullish_divergence_results`, lines 162-200):

    rsi_val = data['rsi'].iloc[idx]
    close_today = data['Close'].iloc[idx]
    close_prev = data['Close'].iloc[idx - 1] if idx > 0 else None
    open_next_day = data['Open'].iloc[idx + 1] if idx + 1 < len(data) else None
    ... base price selection, future-return loop ...
    result = { "Symbol": symbol,
               "Prev Close": round(close_prev, 2) if close_prev else None,
               "Divergence Close": round(close_today, 2),
               "Open Next Day": round(open_next_day, 2) if open_next_day is not None else None,
               "RSI": round(rsi_val, 2),
               "Used Price": price_basis,
               "Available Future Days": available_days,
               "Is Today's Signal": is_target_today,
               **future_returns }

Note the guard on `"Prev Close"` is Python truthiness (`if close_prev`), so a
previous close equal to `0.0` is reported as `None`, while `"Open Next Day"`
uses `is not None`. -/
def buildResult (data : Frame) (idx : ℕ) (use_next_open is_target_today : Bool)
    (sym : String) : ProjRecord :=
  let rsi_val := data.rsiAt idx
  let close_today := data.closeAt idx
  let close_prev : Option ℚ :=
    if 0 < idx then some (data.closeAt (idx - 1)) else none
  let bp := base_price_of data idx use_next_open
  let fr := future_returns_of data idx bp.1
  { symbol := sym
    prevClose :=
      match close_prev with
      | some q => if q ≠ 0 then some (round2q q) else none
      | none => none
    divClose := round2q close_today
    openNextDay := (open_next_day_of data idx).map round2q
    rsiV := pyRound2 rsi_val
    usedPrice := bp.2
    availableDays := fr.2
    isTodaySignal := is_target_today
    dayReturns := fr.1 }

/-- Association-list lookup (leftmost entry wins), keyed by symbol. -/
def alookup (k : String) : List (String × α) → Option α
  | [] => none
  | (k', v) :: m => if k = k' then some v else alookup k m

/-- Replace the value of every entry with key `k` (used to model the in-place
mutation of a DataFrame object that the cache slots for `k` alias). -/
def setVal (m : List (String × α)) (k : String) (v : α) : List (String × α) :=
  m.map fun e => if e.1 = k then (k, v) else e

/-- Replace the `Frame` component of every `lruPre` entry with key `k`. -/
def setPreFrame (m : List (String × Frame × List ℕ)) (k : String) (v : Frame) :
    List (String × Frame × List ℕ) :=
  m.map fun e => if e.1 = k then (k, v, e.2.2) else e

/-- The process-wide mutable state of `rsi.py`:
`lruDownload` is the `@lru_cache` table of `download_data`, `lruPre` the
`@lru_cache` table of `get_preprocessed_data` (both keyed by symbol, never
evicted, and never populated by a raising call), `storeVal`/`storeDate` are
the manual `_cache_store` / `_cache_date` globals. -/
structure CacheState where
  lruDownload : List (String × Frame)
  lruPre : List (String × Frame × List ℕ)
  storeVal : List (String × Frame)
  storeDate : Option ℕ
deriving DecidableEq

/-- The state at interpreter start: empty caches, `_cache_date = None`. -/
def initState : CacheState := ⟨[], [], [], none⟩

/-- Write the mutated frame for `sym` back into every cache slot that aliases
the DataFrame object of `sym` (`add_rsi` mutates in place). -/
def writeBack (σ : CacheState) (sym : String) (data : Frame) : CacheState :=
  { σ with
    lruDownload := setVal σ.lruDownload sym data
    storeVal := setVal σ.storeVal sym data
    lruPre := setPreFrame σ.lruPre sym data }

/-- `download_data(symbol)` from `rsi.py`:

    @lru_cache(maxsize=None)
    def download_data(symbol):
        global _cache_store, _cache_date
        today = datetime.now().date()
        if _cache_date != today:
            _cache_store = {}
            _cache_date = today
        if symbol in _cache_store:
            return _cache_store[symbol]
        ticker = yf.Ticker(symbol)
        data = ticker.history(period='1y')
        if data.empty:
            raise ValueError(f"No data found for {symbol}")
        _cache_store[symbol] = data
        return data

`fetch day sym` is the external `ticker.history` call on calendar day `day`
(an empty frame means no data).  Returns the new state, the number of
external fetches performed by this call (0 or 1) and the result; a raising
call leaves both `lru_cache` tables unpopulated but keeps the global-store
reset it performed. -/
def download_data (fetch : ℕ → String → Frame) (today : ℕ) (σ : CacheState)
    (sym : String) : CacheState × ℕ × Except String Frame :=
  match alookup sym σ.lruDownload with
  | some d => (σ, 0, Except.ok d)
  | none =>
    let σ1 := if σ.storeDate = some today then σ
              else { σ with storeVal := [], storeDate := some today }
    match alookup sym σ1.storeVal with
    | some d =>
      ({ σ1 with lruDownload := (sym, d) :: σ1.lruDownload }, 0, Except.ok d)
    | none =>
      let d := fetch today sym
      if d.bars.isEmpty then
        (σ1, 1, Except.error ("No data found for " ++ sym))
      else
        ({ σ1 with storeVal := (sym, d) :: σ1.storeVal
                   lruDownload := (sym, d) :: σ1.lruDownload },
         1, Except.ok d)

/-- `get_preprocessed_data(symbol)` from `rsi.py`:

    @lru_cache(maxsize=None)
    def get_preprocessed_data(symbol):
        data = download_data(symbol)
        data = add_rsi(data, rsi_period)
        pivot_lows = find_pivot_lows(data['rsi'], pivot_lookback, pivot_lookback)
        divergences = check_bullish_divergence(data, pivot_lows)
        return data, divergences

Returns the new state, the number of external fetches, the number of
oscillator/pivot/divergence computations performed by this call (0 or 1) and
the result.  `add_rsi` mutates the DataFrame held by the caches, hence the
`writeBack`. -/
def get_preprocessed_data (fetch : ℕ → String → Frame)
    (rsiFn : ℕ → List ℚ → List PyFloat) (today : ℕ) (σ : CacheState)
    (sym : String) : CacheState × ℕ × ℕ × Except String (Frame × List ℕ) :=
  match alookup sym σ.lruPre with
  | some r => (σ, 0, 0, Except.ok r)
  | none =>
    match download_data fetch today σ sym with
    | (σ1, nf, Except.error e) => (σ1, nf, 0, Except.error e)
    | (σ1, nf, Except.ok data0) =>
      let data := add_rsi rsiFn data0 rsi_period
      let σ2 := writeBack σ1 sym data
      let pivot_lows := find_pivot_lows flt data.rsiCol pivot_lookback pivot_lookback
      let divergences := check_bullish_divergence data.rsiCol data.lowCol pivot_lows
      ({ σ2 with lruPre := (sym, data, divergences) :: σ2.lruPre },
       nf, 1, Except.ok (data, divergences))

/-- One result dict of `scan_for_today_divergences`. -/
structure TodayResult where
  symbol : String
  rdate : ℕ
  rsiV : PyFloat
  closeV : ℚ
  lowV : ℚ
  highV : ℚ
  volumeV : ℤ
deriving DecidableEq

/-- The body of the per-symbol `try` block of `scan_for_today_divergences`
(lines 120-139): download, add RSI (mutating the cached frame), find pivots,
match divergences, and collect a result dict for every divergence whose bar
date is today. -/
def scan_symbol_today (fetch : ℕ → String → Frame)
    (rsiFn : ℕ → List ℚ → List PyFloat) (today : ℕ) (σ : CacheState)
    (sym : String) : CacheState × Except String (List TodayResult) :=
  match download_data fetch today σ sym with
  | (σ1, _, Except.error e) => (σ1, Except.error e)
  | (σ1, _, Except.ok data0) =>
    let data := add_rsi rsiFn data0 rsi_period
    let σ2 := writeBack σ1 sym data
    let pivot_lows := find_pivot_lows flt data.rsiCol pivot_lookback pivot_lookback
    let divergences := check_bullish_divergence data.rsiCol data.lowCol pivot_lows
    (σ2, Except.ok (divergences.filterMap fun idx =>
      if (data.rowAt idx).date = today then
        some { symbol := sym
               rdate := today
               rsiV := pyRound2 (data.rsiAt idx)
               closeV := round2q (data.closeAt idx)
               lowV := round2q (data.lowAt idx)
               highV := round2q (data.highAt idx)
               volumeV := (data.rowAt idx).vol }
      else none))

/-- `scan_for_today_divergences()` from `rsi.py` (lines 110-144): guard on the
trading calendar (`trading`, the external `is_nse_trading_day()` oracle), then
loop over the symbol universe; every per-symbol exception is caught, printed
and skipped. -/
def scan_for_today_divergences (fetch : ℕ → String → Frame)
    (rsiFn : ℕ → List ℚ → List PyFloat) (trading : Bool) (today : ℕ)
    (σ0 : CacheState) (symbols : List String) :
    CacheState × List TodayResult :=
  if !trading then (σ0, []) else
  symbols.foldl
    (fun acc sym =>
      match scan_symbol_today fetch rsiFn today acc.1 sym with
      | (σ', Except.ok rs) => (σ', acc.2 ++ rs)
      | (σ', Except.error _) => (σ', acc.2))
    (σ0, [])

/-- The body of the per-symbol `try` block of `get_bullish_divergence_results`
(lines 157-202): preprocessed data from the memoized pipeline, then one
`ProjRecord` per divergence whose bar date equals `target`. -/
def process_symbol_for_date (fetch : ℕ → String → Frame)
    (rsiFn : ℕ → List ℚ → List PyFloat) (today target : ℕ)
    (use_next_open : Bool) (σ : CacheState) (sym : String) :
    CacheState × Except String (List ProjRecord) :=
  match get_preprocessed_data fetch rsiFn today σ sym with
  | (σ1, _, _, Except.error e) => (σ1, Except.error e)
  | (σ1, _, _, Except.ok (data, divergences)) =>
    (σ1, Except.ok (divergences.filterMap fun idx =>
      if (data.rowAt idx).date = target then
        some (buildResult data idx use_next_open (decide (target = today)) sym)
      else none))

/-- `get_bullish_divergence_results(target_date, symbols, ..., use_next_open)`
from `rsi.py` (lines 146-210): loop over the symbols, catching and skipping
every per-symbol exception (the purely observational `progress_callback` is
omitted). -/
def get_bullish_divergence_results (fetch : ℕ → String → Frame)
    (rsiFn : ℕ → List ℚ → List PyFloat) (today target : ℕ)
    (use_next_open : Bool) (σ0 : CacheState) (symbols : List String) :
    CacheState × List ProjRecord :=
  symbols.foldl
    (fun acc sym =>
      match process_symbol_for_date fetch rsiFn today target use_next_open acc.1 sym with
      | (σ', Except.ok rs) => (σ', acc.2 ++ rs)
      | (σ', Except.error _) => (σ', acc.2))
    (σ0, [])

/-- Run a sequence of `get_preprocessed_data` queries on one calendar day,
logging for each query its symbol and the number of external fetches and
pipeline computations it triggered. -/
def runPre (fetch : ℕ → String → Frame) (rsiFn : ℕ → List ℚ → List PyFloat)
    (today : ℕ) : CacheState → List String →
    CacheState × List (String × ℕ × ℕ)
  | σ, [] => (σ, [])
  | σ, q :: qs =>
    match get_preprocessed_data fetch rsiFn today σ q with
    | (σ', nf, nc, _) =>
      match runPre fetch rsiFn today σ' qs with
      | (σ'', log) => (σ'', (q, nf, nc) :: log)

/-- Total number of external fetches attributed to symbol `s` in a query log. -/
def fetchesFor (s : String) : List (String × ℕ × ℕ) → ℕ
  | [] => 0
  | e :: l => (if e.1 = s then e.2.1 else 0) + fetchesFor s l

/-- Total number of pipeline computations attributed to symbol `s` in a query
log. -/
def computesFor (s : String) : List (String × ℕ × ℕ) → ℕ
  | [] => 0
  | e :: l => (if e.1 = s then e.2.2 else 0) + computesFor s l

/-- The per-symbol outcomes of a `scan_for_today_divergences` run, in symbol
order: what each iteration's `try` block produced. -/
def scanTodayTrace (fetch : ℕ → String → Frame)
    (rsiFn : ℕ → List ℚ → List PyFloat) (today : ℕ) :
    CacheState → List String → List (Except String (List TodayResult))
  | _, [] => []
  | σ, q :: qs =>
    match scan_symbol_today fetch rsiFn today σ q with
    | (σ', r) => r :: scanTodayTrace fetch rsiFn today σ' qs

/-- The per-symbol outcomes of a `get_bullish_divergence_results` run. -/
def resultsTrace (fetch : ℕ → String → Frame)
    (rsiFn : ℕ → List ℚ → List PyFloat) (today target : ℕ)
    (use_next_open : Bool) :
    CacheState → List String → List (Except String (List ProjRecord))
  | _, [] => []
  | σ, q :: qs =>
    match process_symbol_for_date fetch rsiFn today target use_next_open σ q with
    | (σ', r) => r :: resultsTrace fetch rsiFn today target use_next_open σ' qs

/-- `Except.ok` payload, `none` for an error. -/
def exceptToOption : Except ε α → Option α
  | Except.ok a => some a
  | Except.error _ => none

/-- Concatenate the payloads of the successful outcomes, in order. -/
def joinOks (l : List (Except String (List α))) : List α :=
  (l.filterMap exceptToOption).flatten

/-- Concrete per-day external data: on day `d`, one bar whose prices encode
`d`, so the frames of different days differ. -/
def fetchDay (d : ℕ) (_sym : String) : Frame :=
  ⟨[⟨d, (d : ℚ) + 1, (d : ℚ) + 2, (d : ℚ) + 1, (d : ℚ) + 1, 10⟩], none⟩

/-- Concrete external data source with no bars for any symbol. -/
def fetchEmpty (_d : ℕ) (_sym : String) : Frame := ⟨[], none⟩

/-- Concrete frame for the zero-base-price runs: closes `1, 0, 5`. -/
def exFrame4 : Frame :=
  ⟨[⟨0, 1, 1, 1, 1, 1⟩, ⟨1, 1, 1, 1, 0, 1⟩, ⟨2, 1, 1, 1, 5, 1⟩], none⟩

/-- Concrete frame for the zero-previous-close runs: closes `0, 2`. -/
def exFrame10 : Frame :=
  ⟨[⟨0, 1, 1, 1, 0, 10⟩, ⟨1, 1, 1, 1, 2, 10⟩], none⟩

/-! ## Helper lemmas -/

lemma find_pivot_lows_pairwise [Inhabited α] (lt : α → α → Bool)
    (s : List α) (l r : ℕ) :
    List.Pairwise (· < ·) (find_pivot_lows lt s l r) :=
  List.Pairwise.sublist (List.filter_sublist _)
    (List.pairwise_lt_range' l ((s.length - r) - l))

lemma mem_find_pivot_lows_iff [Inhabited α] (lt : α → α → Bool)
    (s : List α) (l r i : ℕ) :
    i ∈ find_pivot_lows lt s l r ↔
      l ≤ i ∧ i + r < s.length
      ∧ (∀ j, 1 ≤ j → j ≤ l →
          lt (s.getD i default) (s.getD (i - j) default) = true)
      ∧ (∀ j, 1 ≤ j → j ≤ r →
          lt (s.getD i default) (s.getD (i + j) default) = true) := by
  unfold find_pivot_lows
  rw [List.mem_filter, List.mem_range'_1, Bool.and_eq_true,
      List.all_eq_true, List.all_eq_true]
  constructor
  · rintro ⟨⟨h1, h2⟩, hl, hr⟩
    refine ⟨h1, by omega, ?_, ?_⟩
    · intro j hj1 hjl
      have := hl (j - 1) (List.mem_range.mpr (by omega))
      have hj : j - 1 + 1 = j := by omega
      rwa [hj] at this
    · intro j hj1 hjr
      have := hr (j - 1) (List.mem_range.mpr (by omega))
      have hj : j - 1 + 1 = j := by omega
      rwa [hj] at this
  · rintro ⟨h1, h2, hl, hr⟩
    refine ⟨⟨h1, by omega⟩, ?_, ?_⟩
    · intro j hj
      exact hl (j + 1) (by omega) (by have := List.mem_range.mp hj; omega)
    · intro j hj
      exact hr (j + 1) (by omega) (by have := List.mem_range.mp hj; omega)

lemma flt_ne_nan {a b : PyFloat} (h : flt a b = true) :
    a ≠ PyFloat.nan ∧ b ≠ PyFloat.nan := by
  cases a <;> cases b <;> simp_all [flt]

lemma flt_irrefl (a : PyFloat) : flt a a = false := by
  cases a <;> simp [flt]

/-! ## C1 -/

/-- C1: for every numeric series and every non-negative window `(left, right)`,
`find_pivot_lows` returns exactly the indices `i`, ascending and without
duplicates, with `left <= i < len(series) - right` whose value is strictly
less than each of the `left` preceding and `right` following values; ties
never qualify, no index lies outside the window bounds, and a series shorter
than `left + right + 1` yields the empty list. -/
theorem C1_find_pivot_lows_exact (s : List ℚ) (l r : ℕ) :
    List.Pairwise (· < ·) (find_pivot_lows qlt s l r)
    ∧ (∀ i, i ∈ find_pivot_lows qlt s l r ↔
        l ≤ i ∧ i + r < s.length
        ∧ (∀ j, 1 ≤ j → j ≤ l → s.getD i 0 < s.getD (i - j) 0)
        ∧ (∀ j, 1 ≤ j → j ≤ r → s.getD i 0 < s.getD (i + j) 0))
    ∧ (s.length < l + r + 1 → find_pivot_lows qlt s l r = []) := by
  refine ⟨find_pivot_lows_pairwise qlt s l r, ?_, ?_⟩
  · intro i
    rw [mem_find_pivot_lows_iff]
    have hd : (default : ℚ) = 0 := rfl
    simp only [qlt, hd, decide_eq_true_eq]
  · intro h
    unfold find_pivot_lows
    have h0 : s.length - r - l = 0 := by omega
    rw [h0]
    rfl

/-- C1 witness: the characterization evaluated on a concrete series. -/
theorem C1_witness :
    List.Pairwise (· < ·) (find_pivot_lows qlt [3, 1, 2, 0, 4, 5] 1 1) :=
  (C1_find_pivot_lows_exact [3, 1, 2, 0, 4, 5] 1 1).1

/-! ## C7 -/

/-- C7 counterexample: with the degenerate window `left = right = 0` there are
no comparisons at all, so the singleton series holding only `nan` returns
index 0 even though its own value is undefined; the claim, quantified over
every window, fails there. -/
theorem C7_counterexample :
    find_pivot_lows flt [PyFloat.nan] 0 0 = [0]
    ∧ [PyFloat.nan].getD 0 default = PyFloat.nan := by
  constructor <;> rfl

/-- C7 (amended): whenever the window is non-degenerate (`1 ≤ left + right`),
`find_pivot_lows` over a float series never returns an index whose own value
is `nan`; and for every window, no value inside the left/right comparison
window of a returned index is `nan` — under IEEE-754 comparison semantics any
`nan` in a comparison makes the strict inequality false and so disqualifies
the candidate. -/
theorem C7_nan_never_qualifies (s : List PyFloat) (l r i : ℕ)
    (h : i ∈ find_pivot_lows flt s l r) :
    (1 ≤ l + r → s.getD i default ≠ PyFloat.nan)
    ∧ (∀ j, 1 ≤ j → j ≤ l → s.getD (i - j) default ≠ PyFloat.nan)
    ∧ (∀ j, 1 ≤ j → j ≤ r → s.getD (i + j) default ≠ PyFloat.nan) := by
  rw [mem_find_pivot_lows_iff] at h
  obtain ⟨hli, hir, hleft, hright⟩ := h
  refine ⟨?_, ?_, ?_⟩
  · intro hlr
    rcases Nat.lt_or_ge 0 l with hl1 | hl0
    · exact (flt_ne_nan (hleft 1 le_rfl hl1)).1
    · exact (flt_ne_nan (hright 1 le_rfl (by omega))).1
  · intro j h1 h2
    exact (flt_ne_nan (hleft j h1 h2)).2
  · intro j h1 h2
    exact (flt_ne_nan (hright j h1 h2)).2

/-- C7 witness: the amended statement evaluated at a concrete pivot of a
concrete series. -/
theorem C7_witness :
    1 ∈ find_pivot_lows flt [PyFloat.num 1, PyFloat.num 0, PyFloat.num 1] 1 1
    ∧ [PyFloat.num 1, PyFloat.num 0, PyFloat.num 1].getD 1 default ≠ PyFloat.nan :=
  ⟨by decide,
   (C7_nan_never_qualifies [PyFloat.num 1, PyFloat.num 0, PyFloat.num 1] 1 1 1
     (by decide)).1 (by decide)⟩

/-! ## C2 -/

lemma cbd_sublist (rsi : List PyFloat) (low : List ℚ) :
    ∀ l : List ℕ, List.Sublist (check_bullish_divergence rsi low l) (l.drop 1)
  | [] => by simp [check_bullish_divergence]
  | [_] => by simp [check_bullish_divergence]
  | p0 :: p1 :: rest => by
    rw [check_bullish_divergence]
    have ih := cbd_sublist rsi low (p1 :: rest)
    simp only [List.drop_succ_cons, List.drop_zero] at ih ⊢
    split
    · exact List.Sublist.cons₂ p1 ih
    · simp only [List.nil_append]
      exact ih.trans (List.sublist_cons_self p1 rest)

lemma cbd_mem (rsi : List PyFloat) (low : List ℚ) :
    ∀ (l : List ℕ) (c : ℕ),
      c ∈ check_bullish_divergence rsi low l ↔
      ∃ i, 1 ≤ i ∧ i < l.length ∧ l.getD i 0 = c
        ∧ flt (rsi.getD (l.getD (i - 1) 0) PyFloat.nan)
              (rsi.getD (l.getD i 0) PyFloat.nan) = true
        ∧ low.getD (l.getD i 0) 0 < low.getD (l.getD (i - 1) 0) 0
  | [], c => by
    simp only [check_bullish_divergence, List.not_mem_nil, false_iff]
    rintro ⟨i, h1, h2, -⟩
    simp at h2
  | [p], c => by
    simp only [check_bullish_divergence, List.not_mem_nil, false_iff]
    rintro ⟨i, h1, h2, -⟩
    simp at h2
    omega
  | p0 :: p1 :: rest, c => by
    rw [check_bullish_divergence, List.mem_append, cbd_mem rsi low (p1 :: rest) c]
    constructor
    · rintro (hm | ⟨i, h1, hlen, hc, hf, hlo⟩)
      · by_cases hcond :
          (flt (rsi.getD p0 PyFloat.nan) (rsi.getD p1 PyFloat.nan)
            && decide (low.getD p1 0 < low.getD p0 0)) = true
        · rw [if_pos hcond] at hm
          rw [Bool.and_eq_true, decide_eq_true_eq] at hcond
          simp only [List.mem_singleton] at hm
          subst hm
          exact ⟨1, le_rfl, by simp, rfl, by simpa using hcond.1, by simpa using hcond.2⟩
        · rw [if_neg hcond] at hm
          simp at hm
      · refine ⟨i + 1, by omega, by simpa using hlen, by simpa using hc, ?_, ?_⟩
        · have hi : i + 1 - 1 = (i - 1) + 1 := by omega
          rw [hi]
          simpa using hf
        · have hi : i + 1 - 1 = (i - 1) + 1 := by omega
          rw [hi]
          simpa using hlo
    · rintro ⟨i, h1, hlen, hc, hf, hlo⟩
      match i, h1 with
      | 1, _ =>
        left
        simp only [List.getD_cons_succ, List.getD_cons_zero] at hc hf hlo
        have hcond :
            (flt (rsi.getD p0 PyFloat.nan) (rsi.getD p1 PyFloat.nan)
              && decide (low.getD p1 0 < low.getD p0 0)) = true := by
          rw [Bool.and_eq_true, decide_eq_true_eq]
          exact ⟨hf, hlo⟩
        rw [if_pos hcond]
        simp [hc]
      | (i' + 2), _ =>
        right
        refine ⟨i' + 1, by omega,
          by simp only [List.length_cons] at hlen ⊢; omega,
          by simpa using hc, ?_, ?_⟩
        · simpa using hf
        · simpa using hlo

lemma pairwise_getD_lt {l : List ℕ} (h : List.Pairwise (· < ·) l) {i j : ℕ}
    (hij : i < j) (hj : j < l.length) : l.getD i 0 < l.getD j 0 := by
  rw [List.getD_eq_getElem l 0 (by omega), List.getD_eq_getElem l 0 hj]
  exact List.pairwise_iff_getElem.mp h i j (by omega) hj hij

/-- C2: for every bar series (oscillator and low-price columns) and every
ascending pivot-index list, `check_bullish_divergence` flags a pivot
`curr = pivot_lows[i]` (`i >= 1`, `prev = pivot_lows[i-1]`) if and only if
`oscillator[curr] > oscillator[prev]` and `low[curr] < low[prev]`, both
strict; the output is an ascending, duplicate-free subsequence of the input
excluding the first pivot, the first pivot is never flagged, and adjacent
pivots with equal oscillator values produce no flag. -/
theorem C2_divergence_matcher (rsi : List PyFloat) (low : List ℚ)
    (pivots : List ℕ) (hasc : List.Pairwise (· < ·) pivots) :
    List.Sublist (check_bullish_divergence rsi low pivots) (pivots.drop 1)
    ∧ List.Pairwise (· < ·) (check_bullish_divergence rsi low pivots)
    ∧ (∀ c, c ∈ check_bullish_divergence rsi low pivots ↔
        ∃ i, 1 ≤ i ∧ i < pivots.length ∧ pivots.getD i 0 = c
          ∧ flt (rsi.getD (pivots.getD (i - 1) 0) PyFloat.nan)
                (rsi.getD (pivots.getD i 0) PyFloat.nan) = true
          ∧ low.getD (pivots.getD i 0) 0 < low.getD (pivots.getD (i - 1) 0) 0)
    ∧ (∀ p0 tl, pivots = p0 :: tl →
        p0 ∉ check_bullish_divergence rsi low pivots)
    ∧ (∀ i, 1 ≤ i → i < pivots.length →
        rsi.getD (pivots.getD i 0) PyFloat.nan
          = rsi.getD (pivots.getD (i - 1) 0) PyFloat.nan →
        pivots.getD i 0 ∉ check_bullish_divergence rsi low pivots) := by
  refine ⟨cbd_sublist rsi low pivots, ?_, fun c => cbd_mem rsi low pivots c,
    ?_, ?_⟩
  · exact List.Pairwise.sublist
      ((cbd_sublist rsi low pivots).trans (List.drop_sublist 1 pivots)) hasc
  · rintro p0 tl rfl hm
    have hp0 : p0 ∈ (p0 :: tl).drop 1 := (cbd_sublist rsi low _).subset hm
    simp only [List.drop_succ_cons, List.drop_zero] at hp0
    rw [List.pairwise_cons] at hasc
    exact absurd (hasc.1 p0 hp0) (lt_irrefl p0)
  · intro i h1 hlen heq hm
    rw [cbd_mem] at hm
    obtain ⟨i', h1', hlen', hc, hf, hlo⟩ := hm
    have hii : i' = i := by
      rcases Nat.lt_trichotomy i' i with h | h | h
      · exact absurd (hc ▸ pairwise_getD_lt hasc h hlen) (lt_irrefl _)
      · exact h
      · exact absurd (hc ▸ pairwise_getD_lt hasc h hlen') (lt_irrefl _)
    subst hii
    rw [heq] at hf
    rw [flt_irrefl] at hf
    cases hf

/-- C2 witness: the matcher evaluated on a concrete ascending pivot list. -/
theorem C2_witness :
    List.Pairwise (· < ·) [1, 3]
    ∧ List.Sublist
        (check_bullish_divergence
          [PyFloat.num 10, PyFloat.num 20, PyFloat.num 15, PyFloat.num 30]
          [4, 3, 5, 2] [1, 3])
        ([1, 3].drop 1) :=
  ⟨by decide,
   (C2_divergence_matcher
     [PyFloat.num 10, PyFloat.num 20, PyFloat.num 15, PyFloat.num 30]
     [4, 3, 5, 2] [1, 3] (by decide)).1⟩

/-! ## C4 / C5 / C10: the projection record -/

lemma future_returns_eq (data : Frame) (idx : ℕ) (bp : ℚ) :
    future_returns_of data idx bp =
      ((List.range' 1 5).map fun j =>
        if idx + j < data.nrows then
          some (pyRound2 (fmul
            (fdiv (fsub (PyFloat.num (data.closeAt (idx + j)))
                        (PyFloat.num bp))
                  (PyFloat.num bp))
            (PyFloat.num 100)))
        else none,
       min 5 (data.nrows - (idx + 1))) := by
  have h5 : List.range' 1 5 = [1, 2, 3, 4, 5] := rfl
  rw [future_returns_of, h5]
  by_cases h1 : idx + 1 < data.nrows
  · by_cases h2 : idx + 2 < data.nrows
    · by_cases h3 : idx + 3 < data.nrows
      · by_cases h4 : idx + 4 < data.nrows
        · by_cases hl : idx + 5 < data.nrows
          · simp only [List.foldl, List.map, if_pos h1, if_pos h2, if_pos h3,
              if_pos h4, if_pos hl, List.nil_append, List.append_assoc,
              List.singleton_append, List.cons_append, List.nil_append]
            refine Prod.ext (by simp) (by simp; omega)
          · simp only [List.foldl, List.map, if_pos h1, if_pos h2, if_pos h3,
              if_pos h4, if_neg hl]
            refine Prod.ext (by simp) (by simp; omega)
        · have hl : ¬ idx + 5 < data.nrows := by omega
          simp only [List.foldl, List.map, if_pos h1, if_pos h2, if_pos h3,
            if_neg h4, if_neg hl]
          refine Prod.ext (by simp) (by simp; omega)
      · have h4 : ¬ idx + 4 < data.nrows := by omega
        have hl : ¬ idx + 5 < data.nrows := by omega
        simp only [List.foldl, List.map, if_pos h1, if_pos h2, if_neg h3,
          if_neg h4, if_neg hl]
        refine Prod.ext (by simp) (by simp; omega)
    · have h3 : ¬ idx + 3 < data.nrows := by omega
      have h4 : ¬ idx + 4 < data.nrows := by omega
      have hl : ¬ idx + 5 < data.nrows := by omega
      simp only [List.foldl, List.map, if_pos h1, if_neg h2, if_neg h3,
        if_neg h4, if_neg hl]
      refine Prod.ext (by simp) (by simp; omega)
  · have h2 : ¬ idx + 2 < data.nrows := by omega
    have h3 : ¬ idx + 3 < data.nrows := by omega
    have h4 : ¬ idx + 4 < data.nrows := by omega
    have hl : ¬ idx + 5 < data.nrows := by omega
    simp only [List.foldl, List.map, if_neg h1, if_neg h2, if_neg h3,
      if_neg h4, if_neg hl]
    refine Prod.ext (by simp) (by simp; omega)

lemma zero_base_ret (c : ℚ) :
    pyRound2 (fmul (fdiv (fsub (PyFloat.num c) (PyFloat.num 0)) (PyFloat.num 0))
      (PyFloat.num 100)) =
      (if 0 < c then PyFloat.inf
       else if c < 0 then PyFloat.ninf else PyFloat.nan) := by
  simp only [fsub, sub_zero, fdiv, ne_eq, not_true_eq_false, if_false,
    reduceIte]
  split_ifs with h1 h2 <;> simp [fmul, pyRound2]

lemma finite_base_ret (c bp : ℚ) (h : bp ≠ 0) :
    pyRound2 (fmul (fdiv (fsub (PyFloat.num c) (PyFloat.num bp)) (PyFloat.num bp))
      (PyFloat.num 100)) = PyFloat.num (round2q ((c - bp) / bp * 100)) := by
  simp [fsub, fdiv, fmul, pyRound2, h]

/-- C4 counterexample: with `base_price = 0` (divergence-day close of
`exFrame4` at index 1) and one future bar with close `5`, the `Day+1` slot of
the projection record holds `Infinity`, not an absent value; the record is
produced, with no guard and no exception. -/
theorem C4_counterexample :
    (base_price_of exFrame4 1 false).1 = 0
    ∧ (buildResult exFrame4 1 false false "A").dayReturns
        = [some PyFloat.inf, none, none, none, none] := by
  with_unfolding_all decide

/-- C4 (amended): the forward-return computation has no zero-base-price
guard.  When `base_price = 0`, every in-range `Day+j` slot holds the IEEE-754
division result — `Infinity` when the future close is positive, `-Infinity`
when negative, `NaN` when zero — rather than an absent value; no exception is
raised (numpy float64 division). -/
theorem C4_zero_base_nonfinite (data : Frame) (idx : ℕ) (uno itoday : Bool)
    (sym : String) (j : ℕ) (hbp : (base_price_of data idx uno).1 = 0)
    (h1 : 1 ≤ j) (h5 : j ≤ 5) (hin : idx + j < data.nrows) :
    (buildResult data idx uno itoday sym).dayReturns.getD (j - 1) none =
      some (if 0 < data.closeAt (idx + j) then PyFloat.inf
            else if data.closeAt (idx + j) < 0 then PyFloat.ninf
            else PyFloat.nan) := by
  simp only [buildResult]
  rw [hbp, future_returns_eq]
  have hrange : List.range' 1 5 = [1, 2, 3, 4, 5] := rfl
  rw [hrange]
  interval_cases j <;>
    simp only [List.map, List.getD_cons_zero, List.getD_cons_succ,
      Nat.reduceSub] <;>
    rw [if_pos hin, zero_base_ret]

/-- C4 witness: the amended statement evaluated on the concrete zero-base
frame. -/
theorem C4_witness :
    (base_price_of exFrame4 1 false).1 = 0
    ∧ 1 + 1 < exFrame4.nrows
    ∧ (buildResult exFrame4 1 false false "A").dayReturns.getD 0 none =
        some (if 0 < exFrame4.closeAt 2 then PyFloat.inf
              else if exFrame4.closeAt 2 < 0 then PyFloat.ninf
              else PyFloat.nan) :=
  ⟨by decide, by decide,
   C4_zero_base_nonfinite exFrame4 1 false false "A" 1 (by decide) le_rfl
     (by decide) (by decide)⟩

/-- C5: for every bar series and index `idx`, with the base price equal to
the next day's open when `use_next_open` holds and a next-day bar exists and
the divergence-day close otherwise (and nonzero so the claimed formula is
defined): each `Day+j` slot (`j` in 1..5) equals
`(close[idx+j] - base) / base * 100` rounded to 2 decimals when `idx+j` is in
range and is an explicitly present absent slot otherwise; the record always
carries all five slots, and `available_days` is exactly the largest `j` whose
return was computed (0 when none was). -/
theorem C5_projection_slots (data : Frame) (idx : ℕ) (uno itoday : Bool)
    (sym : String) (hbp : (base_price_of data idx uno).1 ≠ 0) :
    (buildResult data idx uno itoday sym).dayReturns.length = 5
    ∧ (∀ j, 1 ≤ j → j ≤ 5 →
        (buildResult data idx uno itoday sym).dayReturns.getD (j - 1) none =
          (if idx + j < data.nrows then
            some (PyFloat.num (round2q
              ((data.closeAt (idx + j) - (base_price_of data idx uno).1)
                / (base_price_of data idx uno).1 * 100)))
          else none))
    ∧ (∀ j, 1 ≤ j → j ≤ 5 →
        ((idx + j < data.nrows) ↔
          j ≤ (buildResult data idx uno itoday sym).availableDays))
    ∧ (buildResult data idx uno itoday sym).availableDays ≤ 5
    ∧ (base_price_of data idx uno).1 =
        (if uno = true ∧ idx + 1 < data.nrows then data.openAt (idx + 1)
         else data.closeAt idx) := by
  have hrange : List.range' 1 5 = [1, 2, 3, 4, 5] := rfl
  refine ⟨?_, ?_, ?_, ?_, ?_⟩
  · simp [buildResult, future_returns_eq]
  · intro j hj1 hj5
    simp only [buildResult]
    rw [future_returns_eq, hrange]
    interval_cases j <;>
      simp only [List.map, List.getD_cons_zero, List.getD_cons_succ,
        Nat.reduceSub] <;>
      split_ifs with h <;>
      first
        | rw [finite_base_ret _ _ hbp]
        | rfl
  · intro j hj1 hj5
    simp only [buildResult]
    rw [future_returns_eq]
    simp only []
    constructor
    · intro h
      simp only [Nat.le_min]
      omega
    · intro h
      simp only [Nat.le_min] at h
      omega
  · simp only [buildResult]
    rw [future_returns_eq]
    simp only []
    omega
  · cases uno with
    | false => simp [base_price_of]
    | true =>
      by_cases h : idx + 1 < data.nrows <;>
        simp [base_price_of, open_next_day_of, h]

/-- C5 witness: the slot layout evaluated on a concrete frame with a nonzero
base price. -/
theorem C5_witness :
    (base_price_of exFrame10 1 false).1 ≠ 0
    ∧ (buildResult exFrame10 1 false false "A").dayReturns.length = 5 :=
  ⟨by decide, (C5_projection_slots exFrame10 1 false false "A" (by decide)).1⟩

/-- C10: the reported previous close should equal the close at `idx - 1`
whenever that bar exists, including when it equals 0 — but the source guards
the field with Python truthiness (`round(close_prev, 2) if close_prev else
None`, unlike the `is not None` guard used for the next-day open on the
adjacent line), so a zero previous close is reported as absent: on
`exFrame10` (closes `0, 2`) the occurrence at index 1 has an existing
previous bar with close `0`, yet `Prev Close` is `None`. -/
theorem C10_zero_prev_close_dropped :
    exFrame10.closeAt 0 = 0
    ∧ 0 < 1
    ∧ (buildResult exFrame10 1 false false "A").prevClose = none := by
  with_unfolding_all decide

/-! ## Cache lemmas (C3, C6, C9) -/

lemma alookup_cons (k k' : String) (v : α) (m : List (String × α)) :
    alookup k ((k', v) :: m) = if k = k' then some v else alookup k m := rfl

lemma alookup_setVal (s k : String) (v : α) (m : List (String × α)) :
    alookup s (setVal m k v) =
      if s = k then (alookup s m).map (fun _ => v) else alookup s m := by
  induction m with
  | nil =>
    simp only [setVal, List.map_nil, alookup]
    split <;> rfl
  | cons e m ih =>
    obtain ⟨k', v'⟩ := e
    dsimp only [setVal, List.map_cons]
    dsimp only [setVal] at ih
    split
    · rename_i h1
      rw [alookup_cons, ih, alookup_cons]
      by_cases h2 : s = k
      · subst h2
        subst h1
        simp
      · simp [h2, show s ≠ k' from fun he => h2 (he.trans h1)]
    · rename_i h1
      rw [alookup_cons, alookup_cons, ih]
      by_cases h2 : s = k'
      · subst h2
        have h3 : ¬ s = k := fun he => h1 (by simp [he])
        simp [h3]
      · simp [h2]

lemma alookup_setPreFrame (s k : String) (v : Frame)
    (m : List (String × Frame × List ℕ)) :
    alookup s (setPreFrame m k v) =
      if s = k then (alookup s m).map (fun p => (v, p.2)) else alookup s m := by
  induction m with
  | nil =>
    simp only [setPreFrame, List.map_nil, alookup]
    split <;> rfl
  | cons e m ih =>
    obtain ⟨k', p⟩ := e
    dsimp only [setPreFrame, List.map_cons]
    dsimp only [setPreFrame] at ih
    split
    · rename_i h1
      rw [alookup_cons, ih, alookup_cons]
      by_cases h2 : s = k
      · subst h2
        subst h1
        simp
      · simp [h2, show s ≠ k' from fun he => h2 (he.trans h1)]
    · rename_i h1
      rw [alookup_cons, alookup_cons, ih]
      by_cases h2 : s = k'
      · subst h2
        have h3 : ¬ s = k := fun he => h1 (by simp [he])
        simp [h3]
      · simp [h2]

lemma download_lruPre_eq (fetch : ℕ → String → Frame) (today : ℕ)
    (σ : CacheState) (sym : String) :
    (download_data fetch today σ sym).1.lruPre = σ.lruPre := by
  unfold download_data
  split
  · rfl
  · dsimp only
    split <;> split <;> (try split) <;> rfl

lemma download_self_hit (fetch : ℕ → String → Frame) (today : ℕ)
    (σ : CacheState) (sym : String) (f : Frame)
    (h : alookup sym σ.lruDownload = some f) :
    download_data fetch today σ sym = (σ, 0, Except.ok f) := by
  unfold download_data
  rw [h]

lemma download_preserves_entry (fetch : ℕ → String → Frame) (today : ℕ)
    (σ : CacheState) (sym s : String) (f : Frame)
    (h : alookup s σ.lruDownload = some f) :
    alookup s (download_data fetch today σ sym).1.lruDownload = some f := by
  by_cases hs : sym = s
  · subst hs
    unfold download_data
    rw [h]
    exact h
  · have hne : s ≠ sym := fun he => hs he.symm
    unfold download_data
    cases hsym : alookup sym σ.lruDownload with
    | some d => exact h
    | none =>
      dsimp only
      split
      · rw [alookup_cons, if_neg hne]
        split <;> exact h
      · split
        · split <;> exact h
        · rw [alookup_cons, if_neg hne]
          split <;> exact h

lemma download_isSome_preserved (fetch : ℕ → String → Frame) (today : ℕ)
    (σ : CacheState) (sym s : String)
    (h : (alookup s σ.lruDownload).isSome) :
    (alookup s (download_data fetch today σ sym).1.lruDownload).isSome := by
  obtain ⟨f, hf⟩ := Option.isSome_iff_exists.mp h
  rw [download_preserves_entry fetch today σ sym s f hf]
  rfl

lemma download_ok_of_nonempty (fetch : ℕ → String → Frame) (today : ℕ)
    (σ : CacheState) (s : String) (hne : (fetch today s).bars ≠ []) :
    ∃ σ1 nf d, download_data fetch today σ s = (σ1, nf, Except.ok d)
      ∧ nf ≤ 1 ∧ alookup s σ1.lruDownload = some d := by
  unfold download_data
  cases h1 : alookup s σ.lruDownload with
  | some d =>
    exact ⟨σ, 0, d, rfl, by omega, h1⟩
  | none =>
    dsimp only
    split
    · rename_i d hd
      exact ⟨_, 0, d, rfl, by omega, by simp [alookup_cons]⟩
    · rw [if_neg (by simpa using hne)]
      exact ⟨_, 1, fetch today s, rfl, le_rfl, by simp [alookup_cons]⟩

lemma gpd_pre_hit (fetch : ℕ → String → Frame)
    (rsiFn : ℕ → List ℚ → List PyFloat) (today : ℕ) (σ : CacheState)
    (sym : String) (r : Frame × List ℕ) (h : alookup sym σ.lruPre = some r) :
    get_preprocessed_data fetch rsiFn today σ sym = (σ, 0, 0, Except.ok r) := by
  unfold get_preprocessed_data
  rw [h]

lemma gpd_lruPre_isSome_preserved (fetch : ℕ → String → Frame)
    (rsiFn : ℕ → List ℚ → List PyFloat) (today : ℕ) (σ : CacheState)
    (q s : String) (h : (alookup s σ.lruPre).isSome) :
    (alookup s (get_preprocessed_data fetch rsiFn today σ q).1.lruPre).isSome := by
  unfold get_preprocessed_data
  cases hq : alookup q σ.lruPre with
  | some r => exact h
  | none =>
    dsimp only
    rcases hd : download_data fetch today σ q with ⟨σ1, nf, res⟩
    have hpre : σ1.lruPre = σ.lruPre := by
      have h' := download_lruPre_eq fetch today σ q
      rw [hd] at h'
      exact h'
    cases res with
    | error e =>
      dsimp only
      rw [hpre]
      exact h
    | ok data0 =>
      dsimp only [writeBack]
      rw [alookup_cons]
      by_cases hsq : s = q
      · rw [if_pos hsq]
        rfl
      · rw [if_neg hsq, alookup_setPreFrame, if_neg hsq, hpre]
        exact h

lemma gpd_self_miss (fetch : ℕ → String → Frame)
    (rsiFn : ℕ → List ℚ → List PyFloat) (today : ℕ) (σ : CacheState)
    (s : String) (hne : (fetch today s).bars ≠ [])
    (h : alookup s σ.lruPre = none) :
    (get_preprocessed_data fetch rsiFn today σ s).2.1 ≤ 1
    ∧ (get_preprocessed_data fetch rsiFn today σ s).2.2.1 ≤ 1
    ∧ (alookup s (get_preprocessed_data fetch rsiFn today σ s).1.lruPre).isSome := by
  unfold get_preprocessed_data
  rw [h]
  dsimp only
  obtain ⟨σ1, nf, d, hd, hnf, hlru⟩ := download_ok_of_nonempty fetch today σ s hne
  rw [hd]
  dsimp only [writeBack]
  refine ⟨hnf, le_rfl, ?_⟩
  rw [alookup_cons, if_pos rfl]
  rfl

lemma fetchesFor_cons (s : String) (e : String × ℕ × ℕ)
    (l : List (String × ℕ × ℕ)) :
    fetchesFor s (e :: l) = (if e.1 = s then e.2.1 else 0) + fetchesFor s l :=
  rfl

lemma computesFor_cons (s : String) (e : String × ℕ × ℕ)
    (l : List (String × ℕ × ℕ)) :
    computesFor s (e :: l) = (if e.1 = s then e.2.2 else 0) + computesFor s l :=
  rfl

lemma runPre_bound (fetch : ℕ → String → Frame)
    (rsiFn : ℕ → List ℚ → List PyFloat) (today : ℕ) (s : String)
    (hne : (fetch today s).bars ≠ []) :
    ∀ (qs : List String) (σ : CacheState),
      fetchesFor s (runPre fetch rsiFn today σ qs).2 ≤
        (if (alookup s σ.lruPre).isSome then 0 else 1)
      ∧ computesFor s (runPre fetch rsiFn today σ qs).2 ≤
        (if (alookup s σ.lruPre).isSome then 0 else 1)
  | [], σ => by
    simp [runPre, fetchesFor, computesFor]
  | q :: qs, σ => by
    rcases hg : get_preprocessed_data fetch rsiFn today σ q with ⟨σ', nf, nc, res⟩
    have hrun : runPre fetch rsiFn today σ (q :: qs) =
        ((runPre fetch rsiFn today σ' qs).1,
         (q, nf, nc) :: (runPre fetch rsiFn today σ' qs).2) := by
      rw [runPre, hg]
    have ih := runPre_bound fetch rsiFn today s hne qs σ'
    rw [hrun, fetchesFor_cons, computesFor_cons]
    dsimp only
    by_cases hq : q = s
    · subst hq
      by_cases hp : (alookup q σ.lruPre).isSome
      · obtain ⟨r, hr⟩ := Option.isSome_iff_exists.mp hp
        rw [gpd_pre_hit fetch rsiFn today σ q r hr] at hg
        simp only [Prod.mk.injEq] at hg
        obtain ⟨hσ, hnf, hnc, -⟩ := hg
        have hp' : (alookup q σ'.lruPre).isSome := hσ ▸ hp
        obtain ⟨ih1, ih2⟩ := ih
        rw [if_pos hp'] at ih1 ih2
        rw [if_pos rfl, if_pos rfl, if_pos hp]
        exact ⟨by omega, by omega⟩
      · have hmiss := gpd_self_miss fetch rsiFn today σ q hne
          (Option.not_isSome_iff_eq_none.mp hp)
        rw [hg] at hmiss
        dsimp only at hmiss
        obtain ⟨h1, h2, h3⟩ := hmiss
        obtain ⟨ih1, ih2⟩ := ih
        rw [if_pos h3] at ih1 ih2
        rw [if_pos rfl, if_pos rfl, if_neg hp]
        exact ⟨by omega, by omega⟩
    · rw [if_neg hq, if_neg hq]
      obtain ⟨ih1, ih2⟩ := ih
      by_cases hp : (alookup s σ.lruPre).isSome
      · have h3 := gpd_lruPre_isSome_preserved fetch rsiFn today σ q s hp
        rw [hg] at h3
        dsimp only at h3
        rw [if_pos h3] at ih1 ih2
        rw [if_pos hp]
        exact ⟨by omega, by omega⟩
      · rw [if_neg hp]
        have b1 : fetchesFor s (runPre fetch rsiFn today σ' qs).2 ≤ 1 :=
          le_trans ih1 (by split <;> omega)
        have b2 : computesFor s (runPre fetch rsiFn today σ' qs).2 ≤ 1 :=
          le_trans ih2 (by split <;> omega)
        exact ⟨by omega, by omega⟩

lemma gpd_keeps_bars (fetch : ℕ → String → Frame)
    (rsiFn : ℕ → List ℚ → List PyFloat) (today : ℕ) (σ : CacheState)
    (sym s : String) (f : Frame) (h : alookup s σ.lruDownload = some f) :
    ∃ f', alookup s (get_preprocessed_data fetch rsiFn today σ sym).1.lruDownload
        = some f' ∧ f'.bars = f.bars := by
  unfold get_preprocessed_data
  cases hq : alookup sym σ.lruPre with
  | some r => exact ⟨f, h, rfl⟩
  | none =>
    dsimp only
    by_cases hs : sym = s
    · subst hs
      rw [download_self_hit fetch today σ sym f h]
      dsimp only [writeBack]
      rw [alookup_setVal, if_pos rfl, h]
      exact ⟨_, rfl, rfl⟩
    · rcases hd : download_data fetch today σ sym with ⟨σ1, nf, res⟩
      have hp : alookup s σ1.lruDownload = some f := by
        have h' := download_preserves_entry fetch today σ sym s f h
        rw [hd] at h'
        exact h'
      cases res with
      | error e => exact ⟨f, hp, rfl⟩
      | ok data0 =>
        dsimp only [writeBack]
        rw [alookup_setVal, if_neg (fun he => hs he.symm), hp]
        exact ⟨f, rfl, rfl⟩

lemma scan_today_keeps_bars (fetch : ℕ → String → Frame)
    (rsiFn : ℕ → List ℚ → List PyFloat) (today : ℕ) (σ : CacheState)
    (sym s : String) (f : Frame) (h : alookup s σ.lruDownload = some f) :
    ∃ f', alookup s (scan_symbol_today fetch rsiFn today σ sym).1.lruDownload
        = some f' ∧ f'.bars = f.bars := by
  unfold scan_symbol_today
  by_cases hs : sym = s
  · subst hs
    rw [download_self_hit fetch today σ sym f h]
    dsimp only [writeBack]
    rw [alookup_setVal, if_pos rfl, h]
    exact ⟨_, rfl, rfl⟩
  · rcases hd : download_data fetch today σ sym with ⟨σ1, nf, res⟩
    have hp : alookup s σ1.lruDownload = some f := by
      have h' := download_preserves_entry fetch today σ sym s f h
      rw [hd] at h'
      exact h'
    cases res with
    | error e => exact ⟨f, hp, rfl⟩
    | ok data0 =>
      dsimp only [writeBack]
      rw [alookup_setVal, if_neg (fun he => hs he.symm), hp]
      exact ⟨f, rfl, rfl⟩

lemma mem_joinOks {l : List (Except String (List α))} {k : ℕ} {rs : List α}
    (h : l.getD k (Except.error "") = Except.ok rs) {x : α} (hx : x ∈ rs) :
    x ∈ joinOks l := by
  have hk : k < l.length := by
    by_contra hk
    rw [List.getD_eq_default _ _ (by omega)] at h
    cases h
  have hmem : Except.ok rs ∈ l := by
    rw [List.getD_eq_getElem _ _ hk] at h
    exact h ▸ List.getElem_mem hk
  unfold joinOks
  rw [List.mem_flatten]
  exact ⟨rs, List.mem_filterMap.mpr ⟨Except.ok rs, hmem, rfl⟩, hx⟩

lemma scanToday_fold (fetch : ℕ → String → Frame)
    (rsiFn : ℕ → List ℚ → List PyFloat) (today : ℕ) :
    ∀ (syms : List String) (σ : CacheState) (acc : List TodayResult),
      (syms.foldl
        (fun acc sym =>
          match scan_symbol_today fetch rsiFn today acc.1 sym with
          | (σ', Except.ok rs) => (σ', acc.2 ++ rs)
          | (σ', Except.error _) => (σ', acc.2))
        (σ, acc)).2
      = acc ++ joinOks (scanTodayTrace fetch rsiFn today σ syms)
  | [], σ, acc => by simp [scanTodayTrace, joinOks]
  | q :: syms, σ, acc => by
    rw [List.foldl_cons]
    dsimp only
    rcases hs : scan_symbol_today fetch rsiFn today σ q with ⟨σ', r⟩
    have htr : scanTodayTrace fetch rsiFn today σ (q :: syms) =
        r :: scanTodayTrace fetch rsiFn today σ' syms := by
      rw [scanTodayTrace, hs]
    rw [htr]
    cases r with
    | ok rs =>
      rw [scanToday_fold fetch rsiFn today syms σ' (acc ++ rs)]
      simp [joinOks, exceptToOption]
    | error e =>
      rw [scanToday_fold fetch rsiFn today syms σ' acc]
      simp [joinOks, exceptToOption]

lemma results_fold (fetch : ℕ → String → Frame)
    (rsiFn : ℕ → List ℚ → List PyFloat) (today target : ℕ) (uno : Bool) :
    ∀ (syms : List String) (σ : CacheState) (acc : List ProjRecord),
      (syms.foldl
        (fun acc sym =>
          match process_symbol_for_date fetch rsiFn today target uno acc.1 sym with
          | (σ', Except.ok rs) => (σ', acc.2 ++ rs)
          | (σ', Except.error _) => (σ', acc.2))
        (σ, acc)).2
      = acc ++ joinOks (resultsTrace fetch rsiFn today target uno σ syms)
  | [], σ, acc => by simp [resultsTrace, joinOks]
  | q :: syms, σ, acc => by
    rw [List.foldl_cons]
    dsimp only
    rcases hs : process_symbol_for_date fetch rsiFn today target uno σ q with ⟨σ', r⟩
    have htr : resultsTrace fetch rsiFn today target uno σ (q :: syms) =
        r :: resultsTrace fetch rsiFn today target uno σ' syms := by
      rw [resultsTrace, hs]
    rw [htr]
    cases r with
    | ok rs =>
      rw [results_fold fetch rsiFn today target uno syms σ' (acc ++ rs)]
      simp [joinOks, exceptToOption]
    | error e =>
      rw [results_fold fetch rsiFn today target uno syms σ' acc]
      simp [joinOks, exceptToOption]

/-! ## C3 -/

/-- C3: the claim says a query on a later calendar day triggers a fresh fetch
and never returns the stale entry — but `@lru_cache(maxsize=None)` on
`download_data` memoizes per symbol forever, so the body with the daily
`_cache_store` reset never runs again: on day 1 the query for "A" performs 0
external fetches and returns the day-0 frame, which differs from what a
fresh day-1 fetch would return. -/
theorem C3_stale_cache_bug :
    (download_data fetchDay 1 (download_data fetchDay 0 initState "A").1 "A").2.1 = 0
    ∧ (download_data fetchDay 1 (download_data fetchDay 0 initState "A").1 "A").2.2
        = Except.ok (fetchDay 0 "A")
    ∧ fetchDay 0 "A" ≠ fetchDay 1 "A" := by
  refine ⟨rfl, rfl, ?_⟩
  with_unfolding_all decide

/-! ## C6 -/

/-- C6 counterexample: a raising call is not memoized by `lru_cache`, so a
symbol whose fetch returns no bars is re-fetched on every same-day query:
two same-day queries for "B" against an empty data source trigger two
external fetches, not at most one. -/
theorem C6_counterexample :
    fetchesFor "B" (runPre fetchEmpty rsiWilder 0 initState ["B", "B"]).2 = 2
    ∧ ¬ fetchesFor "B" (runPre fetchEmpty rsiWilder 0 initState ["B", "B"]).2 ≤ 1 := by
  constructor
  · rfl
  · decide

/-- C6 (amended): within one calendar day, for every symbol whose external
fetch yields data, any interleaved sequence of `get_preprocessed_data`
queries triggers at most one external fetch and at most one
oscillator/pivot/divergence computation for that symbol, from any starting
cache state (repeated calls are served from the memo tables); a symbol whose
fetch raises is exempt, since exceptions are not memoized. -/
theorem C6_at_most_one_fetch (fetch : ℕ → String → Frame)
    (rsiFn : ℕ → List ℚ → List PyFloat) (today : ℕ) (σ0 : CacheState)
    (qs : List String) (s : String) (hne : (fetch today s).bars ≠ []) :
    fetchesFor s (runPre fetch rsiFn today σ0 qs).2 ≤ 1
    ∧ computesFor s (runPre fetch rsiFn today σ0 qs).2 ≤ 1 := by
  obtain ⟨h1, h2⟩ := runPre_bound fetch rsiFn today s hne qs σ0
  exact ⟨le_trans h1 (by split <;> omega), le_trans h2 (by split <;> omega)⟩

/-- C6 witness: two same-day queries of a symbol with data. -/
theorem C6_witness :
    (fetchDay 0 "A").bars ≠ []
    ∧ (fetchesFor "A" (runPre fetchDay rsiWilder 0 initState ["A", "A"]).2 ≤ 1
       ∧ computesFor "A" (runPre fetchDay rsiWilder 0 initState ["A", "A"]).2 ≤ 1) :=
  ⟨by simp [fetchDay],
   C6_at_most_one_fetch fetchDay rsiWilder 0 initState ["A", "A"] "A"
     (by simp [fetchDay])⟩

/-! ## C9 -/

/-- C9 counterexample: the cached bar-series object is not immutable within
an epoch: right after the day-0 download the cache slot for "A" holds the raw
frame (no `rsi` column); after one pipeline run (`get_preprocessed_data`,
whose `add_rsi` assigns the column in place) the same cache slot holds a
different object — the claim that no pipeline stage mutates the cached frame
fails. -/
theorem C9_counterexample :
    alookup "A" (get_preprocessed_data fetchDay rsiWilder 0
        (download_data fetchDay 0 initState "A").1 "A").1.lruDownload
      ≠ alookup "A" (download_data fetchDay 0 initState "A").1.lruDownload := by
  with_unfolding_all decide

/-- C9 (amended): only the `rsi` column of the cached frame is mutated (added
or overwritten in place by `add_rsi`); the bar rows — dates and the
Open/High/Low/Close/Volume values — of the cached entry are preserved by
every pipeline run (`get_preprocessed_data`) and every scan step
(`scan_symbol_today`) within the epoch. -/
theorem C9_bars_immutable (fetch : ℕ → String → Frame)
    (rsiFn : ℕ → List ℚ → List PyFloat) (today : ℕ) (σ : CacheState)
    (sym s : String) (f : Frame) (h : alookup s σ.lruDownload = some f) :
    (∃ f', alookup s (get_preprocessed_data fetch rsiFn today σ sym).1.lruDownload
        = some f' ∧ f'.bars = f.bars)
    ∧ (∃ f', alookup s (scan_symbol_today fetch rsiFn today σ sym).1.lruDownload
        = some f' ∧ f'.bars = f.bars) :=
  ⟨gpd_keeps_bars fetch rsiFn today σ sym s f h,
   scan_today_keeps_bars fetch rsiFn today σ sym s f h⟩

/-- C9 witness: bar rows of the cached entry for "A" survive a concrete
pipeline run. -/
theorem C9_witness :
    alookup "A" (download_data fetchDay 0 initState "A").1.lruDownload
      = some (fetchDay 0 "A")
    ∧ (∃ f', alookup "A" (get_preprocessed_data fetchDay rsiWilder 0
          (download_data fetchDay 0 initState "A").1 "A").1.lruDownload = some f'
        ∧ f'.bars = (fetchDay 0 "A").bars) :=
  ⟨by with_unfolding_all decide,
   (C9_bars_immutable fetchDay rsiWilder 0
      (download_data fetchDay 0 initState "A").1 "A" "A" (fetchDay 0 "A")
      (by with_unfolding_all decide)).1⟩

/-! ## C8 -/

/-- C8: both scan loops catch every per-symbol error and continue: the scan
result equals, for any symbol universe and any starting cache state, the
concatenation of the per-symbol successes in order (a failing symbol
contributes nothing and aborts nothing — the scan itself is total while the
per-symbol body returns an `Except`), and every result of every non-failing
symbol is contained in the returned list. -/
theorem C8_skip_and_continue (fetch : ℕ → String → Frame)
    (rsiFn : ℕ → List ℚ → List PyFloat) (today target : ℕ) (uno : Bool)
    (σ0 : CacheState) (syms : List String) :
    (scan_for_today_divergences fetch rsiFn true today σ0 syms).2
      = joinOks (scanTodayTrace fetch rsiFn today σ0 syms)
    ∧ (get_bullish_divergence_results fetch rsiFn today target uno σ0 syms).2
      = joinOks (resultsTrace fetch rsiFn today target uno σ0 syms)
    ∧ (∀ k rs, (scanTodayTrace fetch rsiFn today σ0 syms).getD k
          (Except.error "") = Except.ok rs →
        ∀ x, x ∈ rs →
          x ∈ (scan_for_today_divergences fetch rsiFn true today σ0 syms).2)
    ∧ (∀ k rs, (resultsTrace fetch rsiFn today target uno σ0 syms).getD k
          (Except.error "") = Except.ok rs →
        ∀ x, x ∈ rs →
          x ∈ (get_bullish_divergence_results fetch rsiFn today target uno σ0 syms).2) := by
  have h1 : (scan_for_today_divergences fetch rsiFn true today σ0 syms).2
      = joinOks (scanTodayTrace fetch rsiFn today σ0 syms) := by
    unfold scan_for_today_divergences
    rw [if_neg (by simp)]
    exact scanToday_fold fetch rsiFn today syms σ0 []
  have h2 : (get_bullish_divergence_results fetch rsiFn today target uno σ0 syms).2
      = joinOks (resultsTrace fetch rsiFn today target uno σ0 syms) := by
    unfold get_bullish_divergence_results
    exact results_fold fetch rsiFn today target uno syms σ0 []
  refine ⟨h1, h2, ?_, ?_⟩
  · intro k rs hk x hx
    rw [h1]
    exact mem_joinOks hk hx
  · intro k rs hk x hx
    rw [h2]
    exact mem_joinOks hk hx

/-- C8 witness: the trace equation evaluated on a concrete one-symbol scan. -/
theorem C8_witness :
    (scan_for_today_divergences fetchDay rsiWilder true 0 initState ["A"]).2
      = joinOks (scanTodayTrace fetchDay rsiWilder 0 initState ["A"]) :=
  (C8_skip_and_continue fetchDay rsiWilder 0 0 false initState ["A"]).1
